import Mathlib

/-!
# cert-manager-webhook-nameshield: FQDN resolver and DNS record client

A shallow embedding of `main.go` (challenge name resolution, `Present`,
`CleanUp`, `getAPIKey`) and `nameshield.go` (the HTTP record client), with the
properties of the specification stated and proved over it.

Go strings are byte sequences; `len`, slicing, `==`, `+`, `strings.HasPrefix`
and `strings.HasSuffix` all work on bytes, so a Go string is a list of bytes.
A slice expression that is out of range panics in Go: the embedding returns
`none` there, and `some r` when the code returns `r`.
-/

namespace NameShield

/-! ## Go strings -/

/-- A Go string: an immutable sequence of bytes. -/
abbrev GoString := List (Fin 256)

/-- The bytes of an ASCII string literal of the source. -/
def str (s : String) : GoString := s.toList.map (fun c => Fin.ofNat c.toNat)

/-- Go `strings.HasPrefix(s, p)`. -/
def HasPrefix (s p : GoString) : Bool := p.isPrefixOf s

/-- Go `strings.HasSuffix(s, p)`. -/
def HasSuffix (s p : GoString) : Bool := p.isSuffixOf s

/-- Go `len(s)`, a (signed) `int`. -/
def len (s : GoString) : Int := (s.length : Int)

/-- Go slice expression `s[lo:hi]`: the run-time check `0 ≤ lo ≤ hi ≤ len(s)`
fails with a panic (`none`), otherwise the bytes from `lo` up to `hi`. -/
def slice (s : GoString) (lo hi : Int) : Option GoString :=
  if 0 ≤ lo ∧ lo ≤ hi ∧ hi ≤ len s then some ((s.take hi.toNat).drop lo.toNat) else none

/-! ## main.go: the resolver -/

/-- Go `extractDomain` (main.go:154-166). -/
def extractDomain (fqdn : GoString) : Option GoString :=
  -- Remove trailing dot if present
  (if HasSuffix fqdn (str ".") then slice fqdn 0 (len fqdn - 1) else some fqdn).bind fun fqdn =>
  -- Remove _acme-challenge prefix
  if HasPrefix fqdn (str "_acme-challenge.") then
    slice fqdn 16 (len fqdn)
  else
    some fqdn

/-- Go `extractRecordName` (main.go:170-187). -/
def extractRecordName (fqdn domain : GoString) : Option GoString :=
  -- Remove trailing dot if present
  (if HasSuffix fqdn (str ".") then slice fqdn 0 (len fqdn - 1) else some fqdn).bind fun fqdn =>
  -- If FQDN is just _acme-challenge.domain, return _acme-challenge
  if fqdn = str "_acme-challenge." ++ domain then
    some (str "_acme-challenge")
  -- Remove domain suffix to get the record name
  else if HasSuffix fqdn (str "." ++ domain) then
    slice fqdn 0 (len fqdn - len domain - 1)
  else
    some fqdn

/-- The two resolver steps as `Present` and `CleanUp` chain them
(main.go:77-80 and 102-105): the zone, then the record name for that zone. -/
def resolve (fqdn : GoString) : Option (GoString × GoString) :=
  (extractDomain fqdn).bind fun domain =>
  (extractRecordName fqdn domain).bind fun recordName =>
  some (domain, recordName)

/-- The normalized form of a name used to state the properties: the name with
exactly one trailing `.` removed when it has one. -/
def normalize (fqdn : GoString) : GoString :=
  if str "." <:+ fqdn then fqdn.dropLast else fqdn

/-- The record name as the specification words it, for a normalized name `n`
and an explicit zone: the literal label on an exact match, `n` without the
suffix `"." ++ zone` when it ends with it, `n` itself otherwise. -/
def splitRecordNameSpec (n zone : GoString) : GoString :=
  if n = str "_acme-challenge." ++ zone then str "_acme-challenge"
  else if (str "." ++ zone) <:+ n then n.take (n.length - (zone.length + 1))
  else n

/-! ## Errors, formatting and JSON -/

/-- A non-nil Go `error`, identified by the message `Error()` returns. A
result of type `error` is an `Option GoError`, with `none` for `nil`. -/
structure GoError where
  msg : GoString
deriving DecidableEq

/-- Decimal digits of a natural number, as `%d` prints them. -/
def fmtNat (n : Nat) : GoString := (Nat.toDigits 10 n).map (fun c => Fin.ofNat c.toNat)

/-- The verb `%d` of package fmt on an `int`. -/
def fmtInt : Int → GoString
  | Int.ofNat n => fmtNat n
  | Int.negSucc n => str "-" ++ fmtNat (n + 1)

/-- The verb `%v` of package fmt on an `error`: its message, `<nil>` for nil. -/
def fmtErr : Option GoError → GoString
  | some err => err.msg
  | none => str "<nil>"

/-- The values the marshalled structs hold. -/
inductive JsonValue where
  | string (s : GoString)
  | int (i : Int)
deriving DecidableEq

/-- Go `NameShieldRecord` (nameshield.go:26-36). -/
structure NameShieldRecord where
  ID : GoString
  Name : GoString
  Type_ : GoString
  Data : GoString
  TTL : Int
  Comment : GoString
  CreatedAt : GoString
  ModifiedAt : GoString
  ModifiedBy : GoString
deriving DecidableEq

/-- Go `NameShieldRecordUpdate` (nameshield.go:38-41). -/
structure NameShieldRecordUpdate where
  Data : GoString
  Comment : GoString
deriving DecidableEq

/-- The `data` member of `NameShieldRecordSearchResults`. -/
structure SearchData where
  Total : Int
  Limit : Int
  Offset : Int
  Results : List NameShieldRecord
deriving DecidableEq

/-- Go `NameShieldRecordSearchResults` (nameshield.go:43-51). -/
structure NameShieldRecordSearchResults where
  Message : GoString
  Data : SearchData
deriving DecidableEq

/-- A field tagged `omitempty` is left out when it holds the zero value. -/
def omitEmptyString (key s : GoString) : List (GoString × JsonValue) :=
  if s = [] then [] else [(key, JsonValue.string s)]

/-- The members `json.Marshal` emits for a `NameShieldRecord`, in declaration
order, following the struct tags: `ttl` and the four last fields are
`omitempty`. -/
def NameShieldRecord.members (r : NameShieldRecord) : List (GoString × JsonValue) :=
  [(str "id", JsonValue.string r.ID), (str "name", JsonValue.string r.Name),
   (str "type", JsonValue.string r.Type_), (str "data", JsonValue.string r.Data)]
  ++ (if r.TTL = 0 then [] else [(str "ttl", JsonValue.int r.TTL)])
  ++ omitEmptyString (str "comment") r.Comment
  ++ omitEmptyString (str "created_at") r.CreatedAt
  ++ omitEmptyString (str "modified_at") r.ModifiedAt
  ++ omitEmptyString (str "modified_by") r.ModifiedBy

/-- The members `json.Marshal` emits for a `NameShieldRecordUpdate`. -/
def NameShieldRecordUpdate.members (r : NameShieldRecordUpdate) :
    List (GoString × JsonValue) :=
  [(str "data", JsonValue.string r.Data)] ++ omitEmptyString (str "comment") r.Comment

/-! ## The outside world

Packages `net/url`, `encoding/json`, `net/http` and the Kubernetes client are
not part of the repository; what the code observes of them is a parameter. -/

/-- An outgoing `http.Request`: what the code sets on it. -/
structure Request where
  method : GoString
  url : GoString
  body : Option GoString
  header : List (GoString × GoString)
deriving DecidableEq

/-- Go `req.Header.Set(key, value)`: the key holds this single value. -/
def Request.setHeader (r : Request) (key value : GoString) : Request :=
  { r with header := (key, value) :: r.header.filter (fun p => p.1 != key) }

/-- Go `req.Header.Get(key)`; `none` when the key is not set. -/
def Request.getHeader (r : Request) (key : GoString) : Option GoString :=
  (r.header.find? (fun p => p.1 == key)).map (fun p => p.2)

/-- An `http.Response` as the code reads it: the status code and what
`ioutil.ReadAll(res.Body)` returns if it is called. -/
structure Response where
  StatusCode : Int
  Body : Except GoError GoString

/-- What the code observes of the libraries and of the provider. -/
structure Env where
  /-- The error of `url.Parse`, the only way `http.NewRequest` fails for the
  fixed methods GET, POST, PUT and DELETE. -/
  urlParse : GoString → Option GoError
  /-- The JSON string literal `encoding/json` writes for a Go string. -/
  jsonString : GoString → GoString
  /-- Library `json.Unmarshal` into a `NameShieldRecordSearchResults`. -/
  unmarshalSearch : GoString → Except GoError NameShieldRecordSearchResults
  /-- Library `json.Unmarshal` into a `nameshieldDNSProviderConfig`: the
  secret name and the key. -/
  unmarshalConfig : GoString → Except GoError (GoString × GoString)
  /-- Method `http.Client.Do` with the 30 second timeout: the provider's
  answer to a request, or the transport error. -/
  Do : Request → Except GoError Response

/-- Go `json.Marshal` of a struct with the given members; it cannot fail on
structs of strings and ints. -/
def jsonMarshal (env : Env) (members : List (GoString × JsonValue)) : GoString :=
  str "\x7b" ++
  (str ",").intercalate (members.map fun m =>
    str "\"" ++ m.1 ++ str "\":" ++
      (match m.2 with
       | JsonValue.string s => env.jsonString s
       | JsonValue.int i => fmtInt i)) ++
  str "\x7d"

/-- Go `http.NewRequest(method, url, body)`. -/
def NewRequest (env : Env) (method url : GoString) (body : Option GoString) :
    Except GoError Request :=
  match env.urlParse url with
  | some err => Except.error err
  | none => Except.ok ⟨method, url, body, []⟩

/-- The outcome of an operation together with the requests it handed to
`http.Client.Do`, in order. -/
structure Call (α : Type) where
  result : α
  sent : List Request
deriving DecidableEq

/-! ## nameshield.go: the record client -/

/-- Go constant `NameShieldLiveDnsBaseUrl`. -/
def NameShieldLiveDnsBaseUrl : GoString := str "https://api.nameshield.net/dns/v2/"

/-- Go `NameShieldClient` (nameshield.go:21-24). -/
structure NameShieldClient where
  apiKey : GoString
  dumpRequestResponse : Bool
deriving DecidableEq

/-- Go `NewNameShieldClient` (nameshield.go:53-58). -/
def NewNameShieldClient (apiKey : GoString) : NameShieldClient :=
  ⟨apiKey, false⟩

/-- Go `nameShieldRecordsUrl` (nameshield.go:60-62). -/
def nameShieldRecordsUrl (domain : GoString) : GoString :=
  NameShieldLiveDnsBaseUrl ++ str "/zones/" ++ domain ++ str "/records"

/-- Go `doRequest` (nameshield.go:64-94), returning `(status, body, err)`; a
nil byte slice is the empty string. The two diagnostic dumps only print. -/
def doRequest (env : Env) (c : NameShieldClient) (req : Request) (readResponseBody : Bool) :
    Call (Int × GoString × Option GoError) :=
  let req := req.setHeader (str "Authorization") (str "Bearer " ++ c.apiKey)
  match env.Do req with
  | Except.error err => ⟨(0, [], some err), [req]⟩
  | Except.ok res =>
    if res.StatusCode = 200 ∧ readResponseBody = true then
      match res.Body with
      | Except.error err => ⟨(0, [], some err), [req]⟩
      | Except.ok data => ⟨(res.StatusCode, data, none), [req]⟩
    else
      ⟨(res.StatusCode, [], none), [req]⟩

/-- Go `HasTxtRecord` (nameshield.go:96-123). -/
def HasTxtRecord (env : Env) (c : NameShieldClient) (domain name : GoString) :
    Call (Bool × Option GoError) :=
  let url := nameShieldRecordsUrl domain ++ str "?name=" ++ name ++ str "&type=TXT"
  match NewRequest env (str "GET") url none with
  | Except.error err => ⟨(false, some err), []⟩
  | Except.ok req =>
    let r := doRequest env c req true
    match r.result with
    | (_, _, some err) => ⟨(false, some err), r.sent⟩
    | (status, responseBody, none) =>
      if status = 404 then
        ⟨(false, none), r.sent⟩
      else if status = 200 then
        match env.unmarshalSearch responseBody with
        | Except.error err =>
          ⟨(false, some ⟨str "failed to parse response: " ++ err.msg⟩), r.sent⟩
        | Except.ok searchResults =>
          ⟨(decide (searchResults.Data.Total > 0), none), r.sent⟩
      else
        ⟨(false, some ⟨str "unexpected HTTP status: " ++ fmtInt status ++
            str ", response: " ++ responseBody⟩), r.sent⟩

/-- Go `CreateTxtRecord` (nameshield.go:125-158). -/
def CreateTxtRecord (env : Env) (c : NameShieldClient) (domain name value : GoString)
    (_ttl : Int) : Call (Option GoError) :=
  let record : NameShieldRecord :=
    { ID := [], Name := name, Type_ := str "TXT", Data := value, TTL := 0,
      Comment := str "Created by cert-manager",
      CreatedAt := [], ModifiedAt := [], ModifiedBy := [] }
  let body := jsonMarshal env record.members
  let url := nameShieldRecordsUrl domain
  match NewRequest env (str "POST") url (some body) with
  | Except.error err => ⟨some err, []⟩
  | Except.ok req =>
    let req := req.setHeader (str "Content-Type") (str "application/json")
    let r := doRequest env c req true
    match r.result with
    | (_, _, some err) => ⟨some err, r.sent⟩
    | (status, responseBody, none) =>
      if status ≠ 201 ∧ status ≠ 200 then
        ⟨some ⟨str "failed creating TXT record: " ++ fmtInt status ++ str ", " ++
            responseBody⟩, r.sent⟩
      else
        ⟨none, r.sent⟩

/-- Go `UpdateTxtRecord` (nameshield.go:160-193). -/
def UpdateTxtRecord (env : Env) (c : NameShieldClient) (domain name value : GoString)
    (_ttl : Int) : Call (Option GoError) :=
  let recordUpdate : NameShieldRecordUpdate :=
    { Data := value, Comment := str "Updated by cert-manager" }
  let body := jsonMarshal env recordUpdate.members
  let url := nameShieldRecordsUrl domain ++ str "/" ++ name ++ str "/TXT"
  match NewRequest env (str "PUT") url (some body) with
  | Except.error err => ⟨some err, []⟩
  | Except.ok req =>
    let req := req.setHeader (str "Content-Type") (str "application/json")
    let r := doRequest env c req true
    match r.result with
    | (_, _, some err) => ⟨some err, r.sent⟩
    | (status, responseBody, none) =>
      if status ≠ 201 ∧ status ≠ 200 then
        ⟨some ⟨str "failed updating TXT record: " ++ fmtInt status ++ str ", " ++
            responseBody⟩, r.sent⟩
      else
        ⟨none, r.sent⟩

/-- Go `DeleteTxtRecord` (nameshield.go:195-215). The error variable is nil
where the failure message formats it. -/
def DeleteTxtRecord (env : Env) (c : NameShieldClient) (domain name : GoString) :
    Call (Option GoError) :=
  let url := nameShieldRecordsUrl domain ++ str "/" ++ name ++ str "/TXT"
  match NewRequest env (str "DELETE") url none with
  | Except.error err => ⟨some err, []⟩
  | Except.ok req =>
    let r := doRequest env c req false
    match r.result with
    | (_, _, some err) => ⟨some err, r.sent⟩
    | (status, _, none) =>
      if status ≠ 200 ∧ status ≠ 204 then
        ⟨some ⟨str "failed deleting TXT record: " ++ fmtErr none⟩, r.sent⟩
      else
        ⟨none, r.sent⟩

/-! ## main.go: the solver -/

/-- A Kubernetes `Secret`: its `Data` map from key to bytes. -/
structure Secret where
  Data : GoString → Option GoString

/-- Go `nameshieldDNSSolver` (main.go:40-42): the client answers
`CoreV1().Secrets(namespace).Get(ctx, name, opts)`. -/
structure nameshieldDNSSolver where
  client : GoString → GoString → Except GoError Secret

/-- Go `nameshieldDNSProviderConfig` (main.go:49-51): the secret reference,
a secret name and a key in its data. -/
structure nameshieldDNSProviderConfig where
  Name : GoString
  Key : GoString
deriving DecidableEq

/-- The fields of `v1alpha1.ChallengeRequest` the solver reads; `Config` is
nil or holds the raw JSON. -/
structure ChallengeRequest where
  ResolvedFQDN : GoString
  Key : GoString
  ResourceNamespace : GoString
  Config : Option GoString

/-- Go `loadConfig` (main.go:123-134). -/
def loadConfig (env : Env) (cfgJSON : Option GoString) :
    Except GoError nameshieldDNSProviderConfig :=
  match cfgJSON with
  | none => Except.ok ⟨[], []⟩
  | some raw =>
    match env.unmarshalConfig raw with
    | Except.error err => Except.error ⟨str "error decoding solver config: " ++ err.msg⟩
    | Except.ok cfg => Except.ok ⟨cfg.1, cfg.2⟩

/-- Go `getAPIKey` (main.go:137-150). -/
def getAPIKey (c : nameshieldDNSSolver) (cfg : nameshieldDNSProviderConfig)
    (nspace : GoString) : Except GoError GoString :=
  let secretName := cfg.Name
  let secretKey := cfg.Key
  match c.client nspace secretName with
  | Except.error err =>
    Except.error ⟨str "error getting secret " ++ nspace ++ str "/" ++ secretName ++
      str ": " ++ err.msg⟩
  | Except.ok secret =>
    match secret.Data secretKey with
    | some data => Except.ok data
    | none =>
      Except.error ⟨str "no key " ++ secretKey ++ str " in secret " ++ nspace ++
        str "/" ++ secretName⟩

/-- Go `Present` (main.go:61-83); `none` stands for a panic of a slice. -/
def Present (env : Env) (c : nameshieldDNSSolver) (ch : ChallengeRequest) :
    Option (Call (Option GoError)) :=
  match loadConfig env ch.Config with
  | Except.error err => some ⟨some ⟨str "error decoding solver config: " ++ err.msg⟩, []⟩
  | Except.ok cfg =>
    match getAPIKey c cfg ch.ResourceNamespace with
    | Except.error err => some ⟨some ⟨str "error getting API key: " ++ err.msg⟩, []⟩
    | Except.ok apiKey =>
      let client := NewNameShieldClient apiKey
      (extractDomain ch.ResolvedFQDN).bind fun domain =>
      (extractRecordName ch.ResolvedFQDN domain).bind fun recordName =>
      some (CreateTxtRecord env client domain recordName ch.Key 300)

/-- Go `CleanUp` (main.go:86-108); `none` stands for a panic of a slice. -/
def CleanUp (env : Env) (c : nameshieldDNSSolver) (ch : ChallengeRequest) :
    Option (Call (Option GoError)) :=
  match loadConfig env ch.Config with
  | Except.error err => some ⟨some ⟨str "error decoding solver config: " ++ err.msg⟩, []⟩
  | Except.ok cfg =>
    match getAPIKey c cfg ch.ResourceNamespace with
    | Except.error err => some ⟨some ⟨str "error getting API key: " ++ err.msg⟩, []⟩
    | Except.ok apiKey =>
      let client := NewNameShieldClient apiKey
      (extractDomain ch.ResolvedFQDN).bind fun domain =>
      (extractRecordName ch.ResolvedFQDN domain).bind fun recordName =>
      some (DeleteTxtRecord env client domain recordName)

/-! ## The requests, spelled out

The requests the three write operations and the search hand to `doRequest`,
written out member by member; the lemmas below show the operations build
exactly these. -/

/-- The POST request of `CreateTxtRecord`, before authorization. -/
def createRequest (env : Env) (domain name value : GoString) : Request :=
  ⟨str "POST", nameShieldRecordsUrl domain,
   some (jsonMarshal env
     [(str "id", JsonValue.string []), (str "name", JsonValue.string name),
      (str "type", JsonValue.string (str "TXT")), (str "data", JsonValue.string value),
      (str "comment", JsonValue.string (str "Created by cert-manager"))]),
   [(str "Content-Type", str "application/json")]⟩

/-- The PUT request of `UpdateTxtRecord`, before authorization. -/
def updateRequest (env : Env) (domain name value : GoString) : Request :=
  ⟨str "PUT", nameShieldRecordsUrl domain ++ str "/" ++ name ++ str "/TXT",
   some (jsonMarshal env
     [(str "data", JsonValue.string value),
      (str "comment", JsonValue.string (str "Updated by cert-manager"))]),
   [(str "Content-Type", str "application/json")]⟩

/-- The DELETE request of `DeleteTxtRecord`, before authorization. -/
def deleteRequest (domain name : GoString) : Request :=
  ⟨str "DELETE", nameShieldRecordsUrl domain ++ str "/" ++ name ++ str "/TXT", none, []⟩

/-- The GET request of `HasTxtRecord`, before authorization. -/
def searchRequest (domain name : GoString) : Request :=
  ⟨str "GET", nameShieldRecordsUrl domain ++ str "?name=" ++ name ++ str "&type=TXT",
   none, []⟩

/-- The request with the bearer token of the client, as `doRequest` sends it. -/
def authorized (c : NameShieldClient) (req : Request) : Request :=
  req.setHeader (str "Authorization") (str "Bearer " ++ c.apiKey)

/-! ## Sample surroundings -/

/-- A sample environment: every URL parses, strings are quoted without
escapes, and the transport and the search decoder give the stated answers. -/
def sampleEnv (answer : Except GoError Response)
    (search : Except GoError NameShieldRecordSearchResults) : Env :=
  { urlParse := fun _ => none
    jsonString := fun s => str "\"" ++ s ++ str "\""
    unmarshalSearch := fun _ => search
    unmarshalConfig := fun _ => Except.ok (str "nameshield-credentials", str "api-key")
    Do := fun _ => answer }

/-- A sample search result reporting `total` matches. -/
def sampleSearch (total : Int) : NameShieldRecordSearchResults :=
  ⟨str "ok", ⟨total, 10, 0, []⟩⟩

/-- A sample secret store: one secret `nameshield-credentials` in namespace
`cert-manager`, holding the given data. -/
def sampleSolver (data : GoString → Option GoString) : nameshieldDNSSolver :=
  ⟨fun nspace name =>
    if nspace = str "cert-manager" ∧ name = str "nameshield-credentials" then
      Except.ok ⟨data⟩
    else
      Except.error ⟨str "secrets \"" ++ name ++ str "\" not found"⟩⟩

/-- A sample challenge for `example.com`. -/
def sampleChallenge : ChallengeRequest :=
  ⟨str "_acme-challenge.example.com.", str "token-digest", str "cert-manager",
   some (str "\x7b\x7d")⟩

/-- A sample response body of the search, reporting `total` matches. -/
def searchBody (total : Int) : GoString :=
  str "\x7b\"message\":\"ok\",\"data\":\x7b\"total\":" ++ fmtInt total ++
    str ",\"limit\":10,\"offset\":0,\"results\":[]\x7d\x7d"

/-- A sample environment for the search: every URL parses, the transport
gives the stated response to a GET and fails otherwise, and the decoder knows
the sample bodies with 0 and with 3 matches and rejects every other body. -/
def searchEnv (answer : Response) : Env :=
  { urlParse := fun _ => none
    jsonString := fun s => str "\"" ++ s ++ str "\""
    unmarshalSearch := fun body =>
      if body = searchBody 0 then Except.ok (sampleSearch 0)
      else if body = searchBody 3 then Except.ok (sampleSearch 3)
      else Except.error ⟨str "unexpected end of JSON input"⟩
    unmarshalConfig := fun _ => Except.ok (str "nameshield-credentials", str "api-key")
    Do := fun req =>
      if req.method = str "GET" then Except.ok answer
      else Except.error ⟨str "unsupported method"⟩ }

/-- A sample environment whose provider answers by method: 204 to a POST,
201 to a PUT, 204 to a DELETE, 404 to anything else, with an empty body. -/
def methodEnv : Env :=
  { urlParse := fun _ => none
    jsonString := fun s => str "\"" ++ s ++ str "\""
    unmarshalSearch := fun _ => Except.error ⟨str "unexpected end of JSON input"⟩
    unmarshalConfig := fun _ => Except.ok (str "nameshield-credentials", str "api-key")
    Do := fun req =>
      if req.method = str "POST" then Except.ok ⟨204, Except.ok []⟩
      else if req.method = str "PUT" then Except.ok ⟨201, Except.ok []⟩
      else if req.method = str "DELETE" then Except.ok ⟨204, Except.ok []⟩
      else Except.ok ⟨404, Except.ok []⟩ }

/-! ## Lemmas on slices -/

theorem str_dot : str "." = [46] := by decide

theorem acme_length : (str "_acme-challenge.").length = 16 := by decide

theorem hasSuffix_iff (s p : GoString) : HasSuffix s p = true ↔ p <:+ s := by
  simp [HasSuffix]

theorem hasPrefix_iff (s p : GoString) : HasPrefix s p = true ↔ p <+: s := by
  simp [HasPrefix]

/-- A slice that drops a suffix `q` of `p ++ q`. -/
theorem slice_append_left (p q : GoString) :
    slice (p ++ q) 0 (len (p ++ q) - len q) = some p := by
  have h : (len (p ++ q) - len q) = (p.length : Int) := by
    simp [len]
  rw [h]
  simp [slice, len]

/-- A slice that drops a prefix `p` of `p ++ q`. -/
theorem slice_append_right (p q : GoString) :
    slice (p ++ q) (len p) (len (p ++ q)) = some q := by
  simp [slice, len]
  have : ((p.length : Int) + (q.length : Int)).toNat = p.length + q.length := by
    omega
  rw [this, ← List.length_append, List.take_length]
  simp

/-- The first step of both functions never panics and yields the normalized
name. -/
theorem trailing_dot_step (fqdn : GoString) :
    (if HasSuffix fqdn (str ".") then slice fqdn 0 (len fqdn - 1) else some fqdn)
      = some (normalize fqdn) := by
  unfold normalize
  by_cases h : str "." <:+ fqdn
  · have h1 : HasSuffix fqdn (str ".") = true := (hasSuffix_iff _ _).2 h
    obtain ⟨p, rfl⟩ := h
    have h2 := slice_append_left p (str ".")
    have h3 : len (str ".") = 1 := by decide
    rw [h3] at h2
    simp only [h1, if_true, h2]
    rw [if_pos ⟨p, rfl⟩]
    simp [str_dot]
  · have h1 : HasSuffix fqdn (str ".") = false := by
      cases hb : HasSuffix fqdn (str ".")
      · rfl
      · exact absurd ((hasSuffix_iff _ _).1 hb) h
    simp [h1, h]

theorem extractDomain_eq (fqdn : GoString) :
    extractDomain fqdn = some
      (if str "_acme-challenge." <+: normalize fqdn then (normalize fqdn).drop 16
       else normalize fqdn) := by
  unfold extractDomain
  rw [trailing_dot_step]
  simp only [Option.some_bind]
  by_cases h : str "_acme-challenge." <+: normalize fqdn
  · have h1 : HasPrefix (normalize fqdn) (str "_acme-challenge.") = true :=
      (hasPrefix_iff _ _).2 h
    rw [if_pos h1, if_pos h]
    obtain ⟨q, hq⟩ := h
    rw [← hq]
    have h2 := slice_append_right (str "_acme-challenge.") q
    have h3 : len (str "_acme-challenge.") = 16 := by decide
    rw [h3] at h2
    rw [h2]
    have : (str "_acme-challenge." ++ q).drop 16 = q := by
      rw [← acme_length, List.drop_left]
    rw [this]
  · have h1 : ¬ HasPrefix (normalize fqdn) (str "_acme-challenge.") = true := by
      intro hb
      exact h ((hasPrefix_iff _ _).1 hb)
    rw [if_neg h1, if_neg h]

theorem extractRecordName_eq (fqdn domain : GoString) :
    extractRecordName fqdn domain = some (splitRecordNameSpec (normalize fqdn) domain) := by
  unfold extractRecordName splitRecordNameSpec
  rw [trailing_dot_step]
  simp only [Option.some_bind]
  by_cases h : normalize fqdn = str "_acme-challenge." ++ domain
  · rw [if_pos h, if_pos h]
  · rw [if_neg h, if_neg h]
    by_cases hs : (str "." ++ domain) <:+ normalize fqdn
    · have h1 : HasSuffix (normalize fqdn) (str "." ++ domain) = true :=
        (hasSuffix_iff _ _).2 hs
      rw [if_pos h1, if_pos hs]
      obtain ⟨p, hp⟩ := hs
      rw [← hp]
      have h2 := slice_append_left p (str "." ++ domain)
      have h3 : len (p ++ (str "." ++ domain)) - len (str "." ++ domain)
          = len (p ++ (str "." ++ domain)) - len domain - 1 := by
        simp [len, str_dot]
        omega
      rw [h3] at h2
      rw [h2]
      congr 1
      have : (p ++ (str "." ++ domain)).length - (domain.length + 1) = p.length := by
        simp [str_dot]
      rw [this, List.take_left]
    · have h1 : ¬ HasSuffix (normalize fqdn) (str "." ++ domain) = true := by
        intro hb
        exact hs ((hasSuffix_iff _ _).1 hb)
      rw [if_neg h1, if_neg hs]

/-! ## The resolver: properties -/

theorem normalize_dot_append (z : GoString) (hz : z ≠ []) (hdot : ¬ str "." <:+ z)
    (p : GoString) : normalize (p ++ z) = p ++ z ∧ normalize (p ++ z ++ str ".") = p ++ z := by
  constructor
  · unfold normalize
    rw [if_neg]
    intro h
    apply hdot
    rw [str_dot] at h ⊢
    obtain ⟨q, hq⟩ := h
    have hz2 : z = z.dropLast ++ [z.getLast hz] := (List.dropLast_append_getLast hz).symm
    rw [hz2, ← List.append_assoc] at hq
    have := List.append_inj_right' hq rfl
    exact ⟨z.dropLast, by rw [this]; exact (List.dropLast_append_getLast hz)⟩
  · unfold normalize
    rw [if_pos ⟨p ++ z, rfl⟩, str_dot, List.dropLast_concat]

/-- C1 (as amended): resolving `_acme-challenge.sub.example.com` yields the
zone `sub.example.com` and the record name `_acme-challenge`; the sub-label
stays in the zone. -/
theorem resolve_sub_label_in_zone :
    resolve (str "_acme-challenge.sub.example.com")
      = some (str "sub.example.com", str "_acme-challenge") := by
  decide

/-- C1 (as stated) fails: the resolver does not yield the zone `example.com`
with the record name `_acme-challenge.sub`. -/
theorem resolve_sub_label_refuted :
    ¬ resolve (str "_acme-challenge.sub.example.com")
      = some (str "example.com", str "_acme-challenge.sub") := by
  decide

/-- C2: for a non-empty zone `z` without trailing dot and the name
`_acme-challenge.z`, with or without one trailing dot, the resolver yields the
zone `z` and the record name `_acme-challenge`, and joining them with a dot
gives back the name without its trailing dot. -/
theorem resolve_round_trip (z f : GoString) (hz : z ≠ []) (hdot : ¬ str "." <:+ z)
    (hf : f = str "_acme-challenge." ++ z ∨ f = str "_acme-challenge." ++ z ++ str ".") :
    extractDomain f = some z ∧
    extractRecordName f z = some (str "_acme-challenge") ∧
    resolve f = some (z, str "_acme-challenge") ∧
    str "_acme-challenge" ++ str "." ++ z = normalize f := by
  have hn : normalize f = str "_acme-challenge." ++ z := by
    rcases hf with rfl | rfl
    · exact (normalize_dot_append z hz hdot _).1
    · exact (normalize_dot_append z hz hdot _).2
  have hd : extractDomain f = some z := by
    rw [extractDomain_eq, hn, if_pos ⟨z, rfl⟩]
    have hdrop : (str "_acme-challenge." ++ z).drop 16 = z := by
      rw [← acme_length, List.drop_left]
    rw [hdrop]
  have hr : extractRecordName f z = some (str "_acme-challenge") := by
    rw [extractRecordName_eq, hn]
    unfold splitRecordNameSpec
    rw [if_pos rfl]
  refine ⟨hd, hr, ?_, ?_⟩
  · unfold resolve
    rw [hd, Option.some_bind, hr, Option.some_bind]
  · rw [hn]
    have : str "_acme-challenge" ++ str "." = str "_acme-challenge." := by decide
    rw [this]

/-- Witness of C2 at the name `_acme-challenge.example.com.`. -/
theorem resolve_round_trip_witness :
    extractDomain (str "_acme-challenge.example.com.") = some (str "example.com") ∧
    extractRecordName (str "_acme-challenge.example.com.") (str "example.com")
      = some (str "_acme-challenge") ∧
    resolve (str "_acme-challenge.example.com.")
      = some (str "example.com", str "_acme-challenge") ∧
    str "_acme-challenge" ++ str "." ++ str "example.com"
      = normalize (str "_acme-challenge.example.com.") :=
  resolve_round_trip (str "example.com") (str "_acme-challenge.example.com.")
    (by decide) (by decide) (Or.inr (by decide))

theorem not_longer_suffix (p n : GoString) (hp : p ≠ []) : ¬ (p ++ n) <:+ n := by
  intro h
  have h1 := h.length_le
  have h2 : 0 < p.length := List.length_pos.2 hp
  rw [List.length_append] at h1
  omega

theorem ne_longer (p n : GoString) (hp : p ≠ []) : n ≠ p ++ n := by
  intro h
  have h1 := congrArg List.length h
  have h2 : 0 < p.length := List.length_pos.2 hp
  rw [List.length_append] at h1
  omega

/-- C3: when the normalized name `n` does not start with `_acme-challenge.`,
the zone is `n` and the record name for that zone is `n` (the fallback
path). -/
theorem resolve_fallback (f : GoString) (h : ¬ str "_acme-challenge." <+: normalize f) :
    extractDomain f = some (normalize f) ∧
    extractRecordName f (normalize f) = some (normalize f) ∧
    resolve f = some (normalize f, normalize f) := by
  have hd : extractDomain f = some (normalize f) := by
    rw [extractDomain_eq, if_neg h]
  have hr : extractRecordName f (normalize f) = some (normalize f) := by
    rw [extractRecordName_eq]
    unfold splitRecordNameSpec
    rw [if_neg (ne_longer _ _ (by decide)), if_neg (not_longer_suffix _ _ (by decide))]
  refine ⟨hd, hr, ?_⟩
  unfold resolve
  rw [hd, Option.some_bind, hr, Option.some_bind]

/-- Witness of C3 at the name `example.com.`. -/
theorem resolve_fallback_witness :
    normalize (str "example.com.") = str "example.com" ∧
    extractDomain (str "example.com.") = some (normalize (str "example.com.")) ∧
    extractRecordName (str "example.com.") (normalize (str "example.com."))
      = some (normalize (str "example.com.")) ∧
    resolve (str "example.com.")
      = some (normalize (str "example.com."), normalize (str "example.com.")) :=
  ⟨by decide, resolve_fallback (str "example.com.") (by decide)⟩

/-- C4: for every name and every explicit zone, `extractRecordName` returns
the record name the specification describes for the normalized name `n`:
`_acme-challenge` on an exact match, otherwise `n` without the suffix
`"." ++ zone` when `n` ends with it (so that the result, a dot and the zone
give `n` back), otherwise `n` unchanged. -/
theorem extractRecordName_spec (fqdn zone : GoString) :
    extractRecordName fqdn zone = some (splitRecordNameSpec (normalize fqdn) zone) ∧
    (normalize fqdn = str "_acme-challenge." ++ zone →
      extractRecordName fqdn zone = some (str "_acme-challenge")) ∧
    (normalize fqdn ≠ str "_acme-challenge." ++ zone →
      ∀ r, normalize fqdn = r ++ str "." ++ zone → extractRecordName fqdn zone = some r) ∧
    (normalize fqdn ≠ str "_acme-challenge." ++ zone →
      ¬ (str "." ++ zone) <:+ normalize fqdn →
      extractRecordName fqdn zone = some (normalize fqdn)) := by
  refine ⟨extractRecordName_eq fqdn zone, ?_, ?_, ?_⟩
  · intro h
    rw [extractRecordName_eq]
    unfold splitRecordNameSpec
    rw [if_pos h]
  · intro h r hr
    rw [extractRecordName_eq]
    unfold splitRecordNameSpec
    rw [if_neg h, hr, List.append_assoc, if_pos ⟨r, rfl⟩]
    congr 1
    have : (r ++ (str "." ++ zone)).length - (zone.length + 1) = r.length := by
      simp [str_dot]
    rw [this, List.take_left]
  · intro h hs
    rw [extractRecordName_eq]
    unfold splitRecordNameSpec
    rw [if_neg h, if_neg hs]

/-- Witness of C4: with the zone `example.com` given explicitly, the name
`_acme-challenge.sub.example.com` has the record name `_acme-challenge.sub`. -/
theorem extractRecordName_spec_witness :
    extractRecordName (str "_acme-challenge.sub.example.com") (str "example.com")
      = some (str "_acme-challenge.sub") :=
  (extractRecordName_spec (str "_acme-challenge.sub.example.com") (str "example.com")).2.2.1
    (by decide) (str "_acme-challenge.sub") (by decide)

theorem resolver_domain_total (fqdn : GoString) : ∃ d, extractDomain fqdn = some d :=
  ⟨_, extractDomain_eq fqdn⟩

theorem resolver_record_total (fqdn domain : GoString) :
    ∃ r, extractRecordName fqdn domain = some r :=
  ⟨_, extractRecordName_eq fqdn domain⟩

/-- C9: for every pair of strings, `extractDomain` and `extractRecordName`
return a value: none of their slice expressions is out of range. -/
theorem resolver_total (fqdn domain : GoString) :
    (∃ d, extractDomain fqdn = some d) ∧ (∃ r, extractRecordName fqdn domain = some r) ∧
    (∃ zr, resolve fqdn = some zr) := by
  refine ⟨⟨_, extractDomain_eq fqdn⟩, ⟨_, extractRecordName_eq fqdn domain⟩, ?_⟩
  unfold resolve
  rw [extractDomain_eq, Option.some_bind, extractRecordName_eq, Option.some_bind]
  exact ⟨_, rfl⟩

/-! ## The record client: properties -/

theorem doRequest_sent (env : Env) (c : NameShieldClient) (req : Request) (rd : Bool) :
    (doRequest env c req rd).sent
      = [authorized c req] := by
  unfold doRequest authorized
  simp only
  split
  · rfl
  · split
    · split <;> rfl
    · rfl

theorem doRequest_error (env : Env) (c : NameShieldClient) (req : Request) (rd : Bool)
    (e : GoError)
    (h : env.Do (authorized c req) = Except.error e) :
    (doRequest env c req rd).result = (0, [], some e) := by
  unfold authorized at h
  unfold doRequest
  simp only [h]

theorem doRequest_ok (env : Env) (c : NameShieldClient) (req : Request) (rd : Bool)
    (res : Response)
    (h : env.Do (authorized c req) = Except.ok res) :
    (doRequest env c req rd).result =
      if res.StatusCode = 200 ∧ rd = true then
        (match res.Body with
         | Except.error err => (0, [], some err)
         | Except.ok data => (res.StatusCode, data, none))
      else (res.StatusCode, [], none) := by
  unfold authorized at h
  unfold doRequest
  simp only [h]
  split
  · split <;> rfl
  · rfl
theorem create_eq (env : Env) (c : NameShieldClient) (domain name value : GoString)
    (ttl : Int) :
    CreateTxtRecord env c domain name value ttl =
      match env.urlParse (nameShieldRecordsUrl domain) with
      | some err => ⟨some err, []⟩
      | none =>
        ⟨(match (doRequest env c (createRequest env domain name value) true).result with
          | (_, _, some err) => some err
          | (status, responseBody, none) =>
            if status ≠ 201 ∧ status ≠ 200 then
              some ⟨str "failed creating TXT record: " ++ fmtInt status ++ str ", " ++
                responseBody⟩
            else none),
         [authorized c (createRequest env domain name value)]⟩ := by
  have hreq : (Request.mk (str "POST") (nameShieldRecordsUrl domain)
      (some (jsonMarshal env (NameShieldRecord.members
        ⟨[], name, str "TXT", value, 0, str "Created by cert-manager", [], [], []⟩))) []).setHeader
        (str "Content-Type") (str "application/json")
      = createRequest env domain name value := by
    have hc : str "Created by cert-manager" ≠ [] := by decide
    simp [createRequest, Request.setHeader, NameShieldRecord.members, omitEmptyString, hc]
  unfold CreateTxtRecord NewRequest
  simp only
  cases hp : env.urlParse (nameShieldRecordsUrl domain) with
  | some err => rfl
  | none =>
    simp only [hreq, doRequest_sent]
    split
    · rfl
    · split <;> simp_all

theorem update_eq (env : Env) (c : NameShieldClient) (domain name value : GoString)
    (ttl : Int) :
    UpdateTxtRecord env c domain name value ttl =
      match env.urlParse (nameShieldRecordsUrl domain ++ str "/" ++ name ++ str "/TXT") with
      | some err => ⟨some err, []⟩
      | none =>
        ⟨(match (doRequest env c (updateRequest env domain name value) true).result with
          | (_, _, some err) => some err
          | (status, responseBody, none) =>
            if status ≠ 201 ∧ status ≠ 200 then
              some ⟨str "failed updating TXT record: " ++ fmtInt status ++ str ", " ++
                responseBody⟩
            else none),
         [authorized c (updateRequest env domain name value)]⟩ := by
  have hreq : (Request.mk (str "PUT")
      (nameShieldRecordsUrl domain ++ str "/" ++ name ++ str "/TXT")
      (some (jsonMarshal env (NameShieldRecordUpdate.members
        ⟨value, str "Updated by cert-manager"⟩))) []).setHeader
        (str "Content-Type") (str "application/json")
      = updateRequest env domain name value := by
    have hc : str "Updated by cert-manager" ≠ [] := by decide
    simp [updateRequest, Request.setHeader, NameShieldRecordUpdate.members, omitEmptyString, hc]
  unfold UpdateTxtRecord NewRequest
  simp only
  cases hp : env.urlParse (nameShieldRecordsUrl domain ++ str "/" ++ name ++ str "/TXT") with
  | some err => rfl
  | none =>
    simp only [hreq, doRequest_sent]
    split
    · rfl
    · split <;> simp_all

theorem delete_eq (env : Env) (c : NameShieldClient) (domain name : GoString) :
    DeleteTxtRecord env c domain name =
      match env.urlParse (nameShieldRecordsUrl domain ++ str "/" ++ name ++ str "/TXT") with
      | some err => ⟨some err, []⟩
      | none =>
        ⟨(match (doRequest env c (deleteRequest domain name) false).result with
          | (_, _, some err) => some err
          | (status, _, none) =>
            if status ≠ 200 ∧ status ≠ 204 then
              some ⟨str "failed deleting TXT record: <nil>"⟩
            else none),
         [authorized c (deleteRequest domain name)]⟩ := by
  have hmsg : str "failed deleting TXT record: " ++ fmtErr none
      = str "failed deleting TXT record: <nil>" := by decide
  have hreq : Request.mk (str "DELETE")
      (nameShieldRecordsUrl domain ++ str "/" ++ name ++ str "/TXT") none []
      = deleteRequest domain name := rfl
  unfold DeleteTxtRecord NewRequest
  simp only [hmsg]
  cases hp : env.urlParse (nameShieldRecordsUrl domain ++ str "/" ++ name ++ str "/TXT") with
  | some err => rfl
  | none =>
    simp only [hreq, doRequest_sent]
    split
    · rfl
    · split <;> simp_all

theorem hasTxtRecord_eq (env : Env) (c : NameShieldClient) (domain name : GoString) :
    HasTxtRecord env c domain name =
      match env.urlParse
          (nameShieldRecordsUrl domain ++ str "?name=" ++ name ++ str "&type=TXT") with
      | some err => ⟨(false, some err), []⟩
      | none =>
        ⟨(match (doRequest env c (searchRequest domain name) true).result with
          | (_, _, some err) => (false, some err)
          | (status, responseBody, none) =>
            if status = 404 then (false, none)
            else if status = 200 then
              (match env.unmarshalSearch responseBody with
               | Except.error err =>
                 (false, some ⟨str "failed to parse response: " ++ err.msg⟩)
               | Except.ok searchResults =>
                 (decide (searchResults.Data.Total > 0), none))
            else
              (false, some ⟨str "unexpected HTTP status: " ++ fmtInt status ++
                str ", response: " ++ responseBody⟩)),
         [authorized c (searchRequest domain name)]⟩ := by
  unfold HasTxtRecord NewRequest
  simp only
  cases hp : env.urlParse
      (nameShieldRecordsUrl domain ++ str "?name=" ++ name ++ str "&type=TXT") with
  | some err => rfl
  | none =>
    have hreq : Request.mk (str "GET")
        (nameShieldRecordsUrl domain ++ str "?name=" ++ name ++ str "&type=TXT") none []
        = searchRequest domain name := rfl
    simp only [hreq, doRequest_sent]
    split
    · rfl
    · split
      · simp_all
      · split
        · split <;> simp_all
        · simp_all

/-- The message of a failed create holds the status code and an empty body,
whatever body the provider sent: `doRequest` reads the body on status 200
only. -/
theorem create_failure_message (env : Env) (c : NameShieldClient)
    (domain name value : GoString) (ttl : Int) (res : Response)
    (hp : env.urlParse (nameShieldRecordsUrl domain) = none)
    (hdo : env.Do (authorized c (createRequest env domain name value)) = Except.ok res)
    (hs : res.StatusCode ≠ 200 ∧ res.StatusCode ≠ 201) :
    (CreateTxtRecord env c domain name value ttl).result
      = some ⟨str "failed creating TXT record: " ++ fmtInt res.StatusCode ++ str ", "⟩ := by
  rw [create_eq]
  simp only [hp, doRequest_ok env c _ true res hdo]
  simp [hs.1, hs.2]

/-- C5 at the failing input: a create answered with status 400 and the body
`bad request` returns the error `failed creating TXT record: 400, `, which
holds the status code but not the body. -/
theorem create_400_message_lacks_body :
    (CreateTxtRecord
        (sampleEnv (Except.ok ⟨400, Except.ok (str "bad request")⟩)
          (Except.ok (sampleSearch 0)))
        (NewNameShieldClient (str "secret"))
        (str "example.com") (str "_acme-challenge") (str "token-digest") 300).result
      = some ⟨str "failed creating TXT record: 400, "⟩ ∧
    fmtInt 400 <:+: str "failed creating TXT record: 400, " ∧
    ¬ str "bad request" <:+: str "failed creating TXT record: 400, " := by
  decide

/-- C6: when the search URL parses and the transport answers the search
request with status `s` (the body being read when `s = 200`), `HasTxtRecord`
sends that one request and returns `(false, nil)` for 404, `(total > 0, nil)`
for 200 with a body that parses, and `false` with an error for a 200 whose
body does not parse and for every other status; it returns `true` only for
200 with `total > 0`. -/
theorem hasTxtRecord_by_status (env : Env) (c : NameShieldClient) (domain name : GoString)
    (res : Response) (b : GoString)
    (hurl : env.urlParse
      (nameShieldRecordsUrl domain ++ str "?name=" ++ name ++ str "&type=TXT") = none)
    (hdo : env.Do (authorized c (searchRequest domain name)) = Except.ok res)
    (hbody : res.StatusCode = 200 → res.Body = Except.ok b) :
    (HasTxtRecord env c domain name).sent = [authorized c (searchRequest domain name)] ∧
    (res.StatusCode = 404 → (HasTxtRecord env c domain name).result = (false, none)) ∧
    (res.StatusCode = 200 → ∀ sr, env.unmarshalSearch b = Except.ok sr →
      (HasTxtRecord env c domain name).result = (decide (sr.Data.Total > 0), none)) ∧
    (res.StatusCode = 200 → ∀ e, env.unmarshalSearch b = Except.error e →
      ∃ err, (HasTxtRecord env c domain name).result = (false, some err)) ∧
    (res.StatusCode ≠ 404 → res.StatusCode ≠ 200 →
      ∃ err, (HasTxtRecord env c domain name).result = (false, some err)) ∧
    ((HasTxtRecord env c domain name).result.1 = true →
      res.StatusCode = 200 ∧ ∃ sr, env.unmarshalSearch b = Except.ok sr ∧ 0 < sr.Data.Total) := by
  rw [hasTxtRecord_eq, hurl]
  refine ⟨rfl, ?_⟩
  simp only [doRequest_ok env c _ true res hdo]
  by_cases h200 : res.StatusCode = 200
  · simp only [h200, hbody h200, and_self, if_true]
    cases hu : env.unmarshalSearch b with
    | error e => simp
    | ok sr => simp
  · simp [h200]
    refine ⟨fun h404 => ?_, ?_⟩
    · simp [h404]
    · split <;> rfl

/-- Witness of C6: a search answered with status 200 and a body that reports
three matches returns `(true, nil)`, after one GET request. -/
theorem hasTxtRecord_by_status_witness :
    (HasTxtRecord (searchEnv ⟨200, Except.ok (searchBody 3)⟩)
        (NewNameShieldClient (str "secret"))
        (str "example.com") (str "_acme-challenge")).sent
      = [authorized (NewNameShieldClient (str "secret"))
          (searchRequest (str "example.com") (str "_acme-challenge"))] ∧
    (HasTxtRecord (searchEnv ⟨200, Except.ok (searchBody 3)⟩)
        (NewNameShieldClient (str "secret"))
        (str "example.com") (str "_acme-challenge")).result = (true, none) := by
  have h := hasTxtRecord_by_status (searchEnv ⟨200, Except.ok (searchBody 3)⟩)
    (NewNameShieldClient (str "secret")) (str "example.com") (str "_acme-challenge")
    ⟨200, Except.ok (searchBody 3)⟩ (searchBody 3) rfl (by rfl) (fun _ => rfl)
  refine ⟨h.1, ?_⟩
  have h2 := h.2.2.1 rfl (sampleSearch 3) (by rfl)
  rw [h2]
  decide

theorem create_contract (env : Env) (c : NameShieldClient) (domain name value : GoString)
    (ttl : Int) (hurl : env.urlParse (nameShieldRecordsUrl domain) = none) :
    (CreateTxtRecord env c domain name value ttl).sent
      = [authorized c (createRequest env domain name value)] ∧
    (∀ e, env.Do (authorized c (createRequest env domain name value)) = Except.error e →
      (CreateTxtRecord env c domain name value ttl).result = some e) ∧
    (∀ res e, env.Do (authorized c (createRequest env domain name value)) = Except.ok res →
      res.StatusCode = 200 → res.Body = Except.error e →
      (CreateTxtRecord env c domain name value ttl).result = some e) ∧
    (∀ res, env.Do (authorized c (createRequest env domain name value)) = Except.ok res →
      (res.StatusCode = 200 → ∃ b, res.Body = Except.ok b) →
      ((CreateTxtRecord env c domain name value ttl).result = none ↔
        (res.StatusCode = 200 ∨ res.StatusCode = 201))) := by
  rw [create_eq, hurl]
  refine ⟨rfl, fun e he => ?_, fun res e hdo h200 hb => ?_, fun res hdo hb => ?_⟩
  · simp only [doRequest_error env c _ true e he]
  · simp only [doRequest_ok env c _ true res hdo]
    simp [h200, hb]
  · simp only [doRequest_ok env c _ true res hdo]
    by_cases h200 : res.StatusCode = 200
    · obtain ⟨b, hb2⟩ := hb h200
      simp [h200, hb2]
    · simp [h200]

theorem update_contract (env : Env) (c : NameShieldClient) (domain name value : GoString)
    (ttl : Int)
    (hurl : env.urlParse (nameShieldRecordsUrl domain ++ str "/" ++ name ++ str "/TXT")
      = none) :
    (UpdateTxtRecord env c domain name value ttl).sent
      = [authorized c (updateRequest env domain name value)] ∧
    (∀ e, env.Do (authorized c (updateRequest env domain name value)) = Except.error e →
      (UpdateTxtRecord env c domain name value ttl).result = some e) ∧
    (∀ res e, env.Do (authorized c (updateRequest env domain name value)) = Except.ok res →
      res.StatusCode = 200 → res.Body = Except.error e →
      (UpdateTxtRecord env c domain name value ttl).result = some e) ∧
    (∀ res, env.Do (authorized c (updateRequest env domain name value)) = Except.ok res →
      (res.StatusCode = 200 → ∃ b, res.Body = Except.ok b) →
      ((UpdateTxtRecord env c domain name value ttl).result = none ↔
        (res.StatusCode = 200 ∨ res.StatusCode = 201))) := by
  rw [update_eq, hurl]
  refine ⟨rfl, fun e he => ?_, fun res e hdo h200 hb => ?_, fun res hdo hb => ?_⟩
  · simp only [doRequest_error env c _ true e he]
  · simp only [doRequest_ok env c _ true res hdo]
    simp [h200, hb]
  · simp only [doRequest_ok env c _ true res hdo]
    by_cases h200 : res.StatusCode = 200
    · obtain ⟨b, hb2⟩ := hb h200
      simp [h200, hb2]
    · simp [h200]

theorem delete_contract (env : Env) (c : NameShieldClient) (domain name : GoString)
    (hurl : env.urlParse (nameShieldRecordsUrl domain ++ str "/" ++ name ++ str "/TXT")
      = none) :
    (DeleteTxtRecord env c domain name).sent = [authorized c (deleteRequest domain name)] ∧
    (∀ e, env.Do (authorized c (deleteRequest domain name)) = Except.error e →
      (DeleteTxtRecord env c domain name).result = some e) ∧
    (∀ res, env.Do (authorized c (deleteRequest domain name)) = Except.ok res →
      ((DeleteTxtRecord env c domain name).result = none ↔
        (res.StatusCode = 200 ∨ res.StatusCode = 204))) := by
  rw [delete_eq, hurl]
  refine ⟨rfl, fun e he => ?_, fun res hdo => ?_⟩
  · simp only [doRequest_error env c _ false e he]
  · simp only [doRequest_ok env c _ false res hdo]
    simp
    omega

/-- C7: when its URL parses, each write operation sends its one request; if
the transport fails on it (sending, or reading the body of a 200) the
operation returns that transport error, and if the transport answers with
status `s` the operation returns nil exactly on its success set: 200 or 201
for `CreateTxtRecord` and `UpdateTxtRecord`, 200 or 204 for
`DeleteTxtRecord`. -/
theorem write_operations_by_status (env : Env) (c : NameShieldClient)
    (domain name value : GoString) (ttl : Int) :
    (env.urlParse (nameShieldRecordsUrl domain) = none →
      (CreateTxtRecord env c domain name value ttl).sent
        = [authorized c (createRequest env domain name value)] ∧
      (∀ e, env.Do (authorized c (createRequest env domain name value)) = Except.error e →
        (CreateTxtRecord env c domain name value ttl).result = some e) ∧
      (∀ res e,
        env.Do (authorized c (createRequest env domain name value)) = Except.ok res →
        res.StatusCode = 200 → res.Body = Except.error e →
        (CreateTxtRecord env c domain name value ttl).result = some e) ∧
      (∀ res, env.Do (authorized c (createRequest env domain name value)) = Except.ok res →
        (res.StatusCode = 200 → ∃ b, res.Body = Except.ok b) →
        ((CreateTxtRecord env c domain name value ttl).result = none ↔
          (res.StatusCode = 200 ∨ res.StatusCode = 201)))) ∧
    (env.urlParse (nameShieldRecordsUrl domain ++ str "/" ++ name ++ str "/TXT") = none →
      (UpdateTxtRecord env c domain name value ttl).sent
        = [authorized c (updateRequest env domain name value)] ∧
      (∀ e, env.Do (authorized c (updateRequest env domain name value)) = Except.error e →
        (UpdateTxtRecord env c domain name value ttl).result = some e) ∧
      (∀ res e,
        env.Do (authorized c (updateRequest env domain name value)) = Except.ok res →
        res.StatusCode = 200 → res.Body = Except.error e →
        (UpdateTxtRecord env c domain name value ttl).result = some e) ∧
      (∀ res, env.Do (authorized c (updateRequest env domain name value)) = Except.ok res →
        (res.StatusCode = 200 → ∃ b, res.Body = Except.ok b) →
        ((UpdateTxtRecord env c domain name value ttl).result = none ↔
          (res.StatusCode = 200 ∨ res.StatusCode = 201)))) ∧
    (env.urlParse (nameShieldRecordsUrl domain ++ str "/" ++ name ++ str "/TXT") = none →
      (DeleteTxtRecord env c domain name).sent
        = [authorized c (deleteRequest domain name)] ∧
      (∀ e, env.Do (authorized c (deleteRequest domain name)) = Except.error e →
        (DeleteTxtRecord env c domain name).result = some e) ∧
      (∀ res, env.Do (authorized c (deleteRequest domain name)) = Except.ok res →
        ((DeleteTxtRecord env c domain name).result = none ↔
          (res.StatusCode = 200 ∨ res.StatusCode = 204)))) :=
  ⟨fun h => create_contract env c domain name value ttl h,
   fun h => update_contract env c domain name value ttl h,
   fun h => delete_contract env c domain name h⟩

/-- Witness of C7, with a provider that answers by method (POST 204, PUT 201,
DELETE 204): the create fails, the update and the delete return nil, each
after its one request; and with a transport that fails, the update returns
the transport error. -/
theorem write_operations_by_status_witness :
    (CreateTxtRecord methodEnv (NewNameShieldClient (str "secret"))
        (str "example.com") (str "_acme-challenge") (str "token-digest") 300).result
      ≠ none ∧
    (UpdateTxtRecord methodEnv (NewNameShieldClient (str "secret"))
        (str "example.com") (str "_acme-challenge") (str "token-digest") 300).result
      = none ∧
    (UpdateTxtRecord methodEnv (NewNameShieldClient (str "secret"))
        (str "example.com") (str "_acme-challenge") (str "token-digest") 300).sent
      = [authorized (NewNameShieldClient (str "secret"))
          (updateRequest methodEnv (str "example.com") (str "_acme-challenge")
            (str "token-digest"))] ∧
    (DeleteTxtRecord methodEnv (NewNameShieldClient (str "secret"))
        (str "example.com") (str "_acme-challenge")).result = none ∧
    (UpdateTxtRecord
        (sampleEnv (Except.error ⟨str "dial tcp: i/o timeout"⟩) (Except.ok (sampleSearch 0)))
        (NewNameShieldClient (str "secret"))
        (str "example.com") (str "_acme-challenge") (str "token-digest") 300).result
      = some ⟨str "dial tcp: i/o timeout"⟩ := by
  have h := write_operations_by_status methodEnv
    (NewNameShieldClient (str "secret")) (str "example.com") (str "_acme-challenge")
    (str "token-digest") 300
  have hf := write_operations_by_status
    (sampleEnv (Except.error ⟨str "dial tcp: i/o timeout"⟩) (Except.ok (sampleSearch 0)))
    (NewNameShieldClient (str "secret")) (str "example.com") (str "_acme-challenge")
    (str "token-digest") 300
  refine ⟨?_, ?_, (h.2.1 rfl).1, ?_, ?_⟩
  · intro hn
    have h2 := ((h.1 rfl).2.2.2 ⟨204, Except.ok []⟩ (by rfl)
      (fun h200 => absurd h200 (by decide))).1 hn
    revert h2
    decide
  · exact ((h.2.1 rfl).2.2.2 ⟨201, Except.ok []⟩ (by rfl)
      (fun h200 => absurd h200 (by decide))).2 (Or.inr rfl)
  · exact ((h.2.2 rfl).2.2 ⟨204, Except.ok []⟩ (by rfl)).2 (Or.inr rfl)
  · exact (hf.2.1 rfl).2.1 ⟨str "dial tcp: i/o timeout"⟩ rfl

/-! ## The solver: properties -/

theorem getAPIKey_missing (s : nameshieldDNSSolver) (cfg : nameshieldDNSProviderConfig)
    (nspace : GoString)
    (h : (∃ e, s.client nspace cfg.Name = Except.error e) ∨
      (∃ sec, s.client nspace cfg.Name = Except.ok sec ∧ sec.Data cfg.Key = none)) :
    ∃ e, getAPIKey s cfg nspace = Except.error e := by
  unfold getAPIKey
  rcases h with ⟨e, he⟩ | ⟨sec, hs, hk⟩
  · simp only [he]
    exact ⟨_, rfl⟩
  · simp only [hs, hk]
    exact ⟨_, rfl⟩

theorem getAPIKey_found (s : nameshieldDNSSolver) (cfg : nameshieldDNSProviderConfig)
    (nspace : GoString) (sec : Secret) (data : GoString)
    (hs : s.client nspace cfg.Name = Except.ok sec) (hk : sec.Data cfg.Key = some data) :
    getAPIKey s cfg nspace = Except.ok data := by
  unfold getAPIKey
  simp only [hs, hk]

theorem authorized_header (c : NameShieldClient) (req : Request) :
    (authorized c req).getHeader (str "Authorization") = some (str "Bearer " ++ c.apiKey) := by
  simp [authorized, Request.setHeader, Request.getHeader]

theorem create_sent_authorized (env : Env) (c : NameShieldClient)
    (domain name value : GoString) (ttl : Int) :
    ∀ r ∈ (CreateTxtRecord env c domain name value ttl).sent,
      r.getHeader (str "Authorization") = some (str "Bearer " ++ c.apiKey) := by
  intro r hr
  rw [create_eq] at hr
  cases hp : env.urlParse (nameShieldRecordsUrl domain) with
  | some err =>
    rw [hp] at hr
    simp at hr
  | none =>
    rw [hp] at hr
    simp only [List.mem_singleton] at hr
    rw [hr]
    exact authorized_header _ _

theorem delete_sent_authorized (env : Env) (c : NameShieldClient) (domain name : GoString) :
    ∀ r ∈ (DeleteTxtRecord env c domain name).sent,
      r.getHeader (str "Authorization") = some (str "Bearer " ++ c.apiKey) := by
  intro r hr
  rw [delete_eq] at hr
  cases hp : env.urlParse (nameShieldRecordsUrl domain ++ str "/" ++ name ++ str "/TXT") with
  | some err =>
    rw [hp] at hr
    simp at hr
  | none =>
    rw [hp] at hr
    simp only [List.mem_singleton] at hr
    rw [hr]
    exact authorized_header _ _

/-- C8: when the secret or the configured key is missing, `Present` and
`CleanUp` return an error and send no request; when the key is there, they
call the provider with a client holding exactly the stored bytes, and every
request they send carries those bytes as bearer token. -/
theorem secret_lookup_guards_provider (env : Env) (s : nameshieldDNSSolver)
    (ch : ChallengeRequest) :
    ((∀ cfg, loadConfig env ch.Config = Except.ok cfg →
        ((∃ e, s.client ch.ResourceNamespace cfg.Name = Except.error e) ∨
         (∃ sec, s.client ch.ResourceNamespace cfg.Name = Except.ok sec ∧
            sec.Data cfg.Key = none))) →
      (∃ e, Present env s ch = some ⟨some e, []⟩) ∧
      (∃ e, CleanUp env s ch = some ⟨some e, []⟩)) ∧
    (∀ cfg sec data, loadConfig env ch.Config = Except.ok cfg →
      s.client ch.ResourceNamespace cfg.Name = Except.ok sec →
      sec.Data cfg.Key = some data →
      ∃ zone recordName, resolve ch.ResolvedFQDN = some (zone, recordName) ∧
        Present env s ch
          = some (CreateTxtRecord env (NewNameShieldClient data) zone recordName ch.Key 300) ∧
        CleanUp env s ch
          = some (DeleteTxtRecord env (NewNameShieldClient data) zone recordName) ∧
        (NewNameShieldClient data).apiKey = data ∧
        (∀ call, Present env s ch = some call ∨ CleanUp env s ch = some call →
          ∀ r ∈ call.sent,
            r.getHeader (str "Authorization") = some (str "Bearer " ++ data))) := by
  constructor
  · intro h
    unfold Present CleanUp
    cases hc : loadConfig env ch.Config with
    | error err => exact ⟨⟨_, rfl⟩, ⟨_, rfl⟩⟩
    | ok cfg =>
      obtain ⟨e, he⟩ := getAPIKey_missing s cfg ch.ResourceNamespace (h cfg hc)
      simp only [he]
      exact ⟨⟨_, rfl⟩, ⟨_, rfl⟩⟩
  · intro cfg sec data hc hs hk
    have hkey := getAPIKey_found s cfg ch.ResourceNamespace sec data hs hk
    obtain ⟨zone, hz⟩ := (resolver_domain_total ch.ResolvedFQDN)
    obtain ⟨recordName, hr⟩ := (resolver_record_total ch.ResolvedFQDN zone)
    have hP : Present env s ch
        = some (CreateTxtRecord env (NewNameShieldClient data) zone recordName ch.Key 300) := by
      unfold Present
      simp only [hc, hkey, hz, hr, Option.some_bind]
    have hC : CleanUp env s ch
        = some (DeleteTxtRecord env (NewNameShieldClient data) zone recordName) := by
      unfold CleanUp
      simp only [hc, hkey, hz, hr, Option.some_bind]
    refine ⟨zone, recordName, ?_, hP, hC, rfl, ?_⟩
    · unfold resolve
      simp only [hz, hr, Option.some_bind]
    · intro call hcall r hmem
      rcases hcall with h1 | h1
      · rw [hP] at h1
        cases h1
        exact create_sent_authorized env (NewNameShieldClient data) zone recordName ch.Key 300
          r hmem
      · rw [hC] at h1
        cases h1
        exact delete_sent_authorized env (NewNameShieldClient data) zone recordName r hmem

/-- Witness of C8: with a secret that lacks the key, `Present` and `CleanUp`
fail without a request. -/
theorem secret_lookup_guards_provider_witness :
    (∃ e, Present (sampleEnv (Except.ok ⟨201, Except.ok []⟩) (Except.ok (sampleSearch 0)))
        (sampleSolver (fun _ => none)) sampleChallenge = some ⟨some e, []⟩) ∧
    (∃ e, CleanUp (sampleEnv (Except.ok ⟨201, Except.ok []⟩) (Except.ok (sampleSearch 0)))
        (sampleSolver (fun _ => none)) sampleChallenge = some ⟨some e, []⟩) :=
  (secret_lookup_guards_provider
    (sampleEnv (Except.ok ⟨201, Except.ok []⟩) (Except.ok (sampleSearch 0)))
    (sampleSolver (fun _ => none)) sampleChallenge).1
    (fun cfg hcfg => Or.inr ⟨⟨fun _ => none⟩, by
      have h2 : cfg = ⟨str "nameshield-credentials", str "api-key"⟩ := by
        cases hcfg
        rfl
      subst h2
      exact ⟨by rfl, rfl⟩⟩)

/-- C10: the `ttl` argument has no effect: for any two values of it
`CreateTxtRecord` and `UpdateTxtRecord` send the same requests and return the
same result, and the JSON body they send has the members `id`, `name`, `type`,
`data`, `comment` (create) and `data`, `comment` (update), with no `ttl`. -/
theorem ttl_has_no_effect (env : Env) (c : NameShieldClient) (domain name value : GoString)
    (ttl1 ttl2 : Int) :
    CreateTxtRecord env c domain name value ttl1
      = CreateTxtRecord env c domain name value ttl2 ∧
    UpdateTxtRecord env c domain name value ttl1
      = UpdateTxtRecord env c domain name value ttl2 ∧
    (∀ r ∈ (CreateTxtRecord env c domain name value ttl1).sent,
      r.method = str "POST" ∧ r.url = nameShieldRecordsUrl domain ∧
      ∃ members, r.body = some (jsonMarshal env members) ∧
        members.map Prod.fst = [str "id", str "name", str "type", str "data", str "comment"] ∧
        str "ttl" ∉ members.map Prod.fst) ∧
    (∀ r ∈ (UpdateTxtRecord env c domain name value ttl1).sent,
      r.method = str "PUT" ∧
      r.url = nameShieldRecordsUrl domain ++ str "/" ++ name ++ str "/TXT" ∧
      ∃ members, r.body = some (jsonMarshal env members) ∧
        members.map Prod.fst = [str "data", str "comment"] ∧
        str "ttl" ∉ members.map Prod.fst) := by
  refine ⟨rfl, rfl, ?_, ?_⟩
  · intro r hr
    rw [create_eq] at hr
    cases hp : env.urlParse (nameShieldRecordsUrl domain) with
    | some err =>
      rw [hp] at hr
      simp at hr
    | none =>
      rw [hp] at hr
      simp only [List.mem_singleton] at hr
      subst hr
      refine ⟨rfl, rfl, _, rfl, rfl, ?_⟩
      simp only [List.map]
      decide
  · intro r hr
    rw [update_eq] at hr
    cases hp : env.urlParse (nameShieldRecordsUrl domain ++ str "/" ++ name ++ str "/TXT") with
    | some err =>
      rw [hp] at hr
      simp at hr
    | none =>
      rw [hp] at hr
      simp only [List.mem_singleton] at hr
      subst hr
      refine ⟨rfl, rfl, _, rfl, rfl, ?_⟩
      simp only [List.map]
      decide

end NameShield
